import Mathlib

/-!
Verification of the transactional object store in
`pkg/inventory/model/client.go` (Client / Tx / label synchronization),
as a shallow state-machine embedding.  The Relational Mapper (`Table`),
the `Journal` and the `Watch` are external collaborators of the shown
code; they are modelled from the specification's contract for them.
Every store operation returns its result, the successor state, and a
trace of primitive steps, so that ordering properties (journal commit
after backend commit, watch registration before the snapshot list,
lock acquisition spans) can be stated and proved.
-/

namespace Controller

/-- A persisted typed record ("model"): its type name (kind), primary key,
payload, and the label mapping reported by `Labels()`. -/
structure Model where
  kind : String
  pk : Nat
  data : Nat
  labels : List (String × String)
deriving Repr, DecidableEq

/-- A label row {Parent, Kind, Name, Value} of the built-in Label table. -/
structure Label where
  parent : Nat
  kind : String
  name : String
  value : String
deriving Repr, DecidableEq

/-- Errors surfaced by the store. `TxInvalid` embeds `TxInvalidError`. -/
inductive Err where
  | NotFound
  | Constraint
  | TxInvalid
  | CommitFailed
deriving Repr, DecidableEq

/-- Modelled from the spec: the backing store of the Relational Mapper —
one table per model kind (kept in one keyed row list) plus the built-in
Label table. -/
structure DBState where
  rows : List Model
  labels : List Label
deriving Repr, DecidableEq

/-- Row lookup by (kind, primary key). -/
def DBState.getRow (db : DBState) (kind : String) (pk : Nat) : Option Model :=
  db.rows.find? (fun r => r.kind == kind && r.pk == pk)

/-- Modelled from the spec: `Table.Get` — populate from the row with the
model's key; NotFound if absent. -/
def tableGet (db : DBState) (m : Model) : Except Err Model :=
  match db.getRow m.kind m.pk with
  | some r => .ok r
  | none => .error .NotFound

/-- Modelled from the spec: `Table.Insert` — fails on a duplicate key. -/
def tableInsert (db : DBState) (m : Model) : Except Err DBState :=
  match db.getRow m.kind m.pk with
  | some _ => .error .Constraint
  | none => .ok { db with rows := db.rows ++ [m] }

/-- Modelled from the spec: `Table.Update` — replace the row in place. -/
def tableUpdate (db : DBState) (m : Model) : Except Err DBState :=
  match db.getRow m.kind m.pk with
  | some _ =>
      .ok { db with
              rows := db.rows.map
                (fun r => if r.kind == m.kind && r.pk == m.pk then m else r) }
  | none => .error .NotFound

/-- Modelled from the spec: `Table.Delete` — delete the row; deleting an
absent row affects zero rows and succeeds. -/
def tableDelete (db : DBState) (m : Model) : Except Err DBState :=
  .ok { db with rows := db.rows.filter (fun r => !(r.kind == m.kind && r.pk == m.pk)) }

/-- Modelled from the spec: `Table.List` of a model kind, in storage
(insertion) order. -/
def tableListKind (db : DBState) (kind : String) : List Model :=
  db.rows.filter (fun r => r.kind == kind)

/-- Two label rows are the same record (full column match). -/
def sameLabel (x l : Label) : Bool :=
  x.parent == l.parent && x.kind == l.kind && x.name == l.name && x.value == l.value

/-- Modelled from the spec: inserting a Label row — the Label table is
indexed by (Kind, Parent, Name), so a duplicate of that key fails. -/
def tableInsertLabel (db : DBState) (l : Label) : Except Err DBState :=
  if db.labels.any (fun x => x.parent == l.parent && x.kind == l.kind && x.name == l.name)
  then .error .Constraint
  else .ok { db with labels := db.labels ++ [l] }

/-- Modelled from the spec: `Table.List` of Label rows filtered by the
predicate And(Eq(Kind,..), Eq(Parent,..)). -/
def tableListLabels (db : DBState) (kind : String) (parent : Nat) : List Label :=
  db.labels.filter (fun x => x.kind == kind && x.parent == parent)

/-- Modelled from the spec: deleting one Label row (in-memory delete of an
existing or absent row always succeeds). -/
def tableDeleteLabel (db : DBState) (l : Label) : Except Err DBState :=
  .ok { db with labels := db.labels.filter (fun x => !(sameLabel x l)) }

/-- A change action. -/
inductive Action where
  | Created
  | Updated
  | Deleted
deriving Repr, DecidableEq

/-- A journal entry / dispatched event: {Model, PriorModel (Updated only),
Action}. -/
structure Event where
  model : Model
  prior : Option Model
  action : Action
deriving Repr, DecidableEq

/-- The synthetic Created event replayed for an existing row. -/
def createdEvent (m : Model) : Event :=
  { model := m, prior := none, action := Action.Created }

/-- Modelled from the spec: a Watch — target record kind, started (live)
flag, and the events its handler has received so far. -/
structure Watch where
  id : Nat
  kind : String
  started : Bool
  delivered : List Event
deriving Repr, DecidableEq

/-- Modelled from the spec: the Journal — staged entries of the current
write unit plus the registered watches. -/
structure Journal where
  staged : List Event
  watches : List Watch
  nextWatchId : Nat
deriving Repr, DecidableEq

/-- Journal.Created: stage a created entry; never touches storage. -/
def Journal.created (j : Journal) (m : Model) : Journal :=
  { j with staged := j.staged ++ [createdEvent m] }

/-- Journal.Updated: stage an updated entry with the prior snapshot. -/
def Journal.updated (j : Journal) (priorM m : Model) : Journal :=
  { j with staged := j.staged ++ [{ model := m, prior := some priorM, action := Action.Updated }] }

/-- Journal.Deleted: stage a deleted entry. -/
def Journal.deleted (j : Journal) (m : Model) : Journal :=
  { j with staged := j.staged ++ [{ model := m, prior := none, action := Action.Deleted }] }

/-- Dispatch one event to one watch: delivered only when the watch is live
and the model kind matches the watch's target kind. -/
def Watch.dispatch (w : Watch) (e : Event) : Watch :=
  if w.started && w.kind == e.model.kind
  then { w with delivered := w.delivered ++ [e] }
  else w

/-- Journal.Commit: dispatch every staged entry, FIFO, to every matching
live watch, then clear the staged entries. -/
def Journal.commit (j : Journal) : Journal :=
  { j with
      staged := [],
      watches := j.watches.map (fun w => j.staged.foldl Watch.dispatch w) }

/-- Journal.Unstage: discard all staged entries without dispatch. -/
def Journal.unstage (j : Journal) : Journal :=
  { j with staged := [] }

/-- Journal.Watch: register a new, not-yet-started watch. -/
def Journal.registerWatch (j : Journal) (kind : String) : Journal × Nat :=
  ({ j with
      watches := j.watches ++ [{ id := j.nextWatchId, kind := kind, started := false, delivered := [] }],
      nextWatchId := j.nextWatchId + 1 },
   j.nextWatchId)

/-- Watch.notify: deliver one event directly to the identified watch
(used for the snapshot replay, before the watch is started). -/
def Journal.notifyWatch (j : Journal) (wid : Nat) (e : Event) : Journal :=
  { j with
      watches := j.watches.map
        (fun w => if w.id == wid then { w with delivered := w.delivered ++ [e] } else w) }

/-- Watch.Start: transition the identified watch to live delivery. -/
def Journal.startWatch (j : Journal) (wid : Nat) : Journal :=
  { j with
      watches := j.watches.map
        (fun w => if w.id == wid then { w with started := true } else w) }

/-- Journal.copy: a detached snapshot of the model value (pure values in
the embedding, so the copy is the value itself). -/
def journalCopy (m : Model) : Model := m

/-- A primitive step recorded in an operation's trace. -/
inductive Op where
  | lockState
  | unlockState
  | lockDb
  | unlockDb
  | backendBegin
  | backendCommit (ok : Bool)
  | backendRollback
  | stage (a : Action)
  | journalCommit
  | journalUnstage
  | registerWatch (kind : String)
  | snapshotList (kind : String)
  | notify (pk : Nat)
  | startWatch
deriving Repr, DecidableEq

/-- The Client's state: `base` is the durably committed backend state,
`cur` the working state seen by the open transaction (`base = cur`
whenever no transaction is open); `tx` is the active `sql.Tx` reference,
`dbLocked` the `dbMutex` write-serialization lock. -/
structure ClientState where
  base : DBState
  cur : DBState
  tx : Option Nat
  dbLocked : Bool
  nextTxId : Nat
  journal : Journal
deriving Repr, DecidableEq

/-- Result of a store call: outcome, successor state, and trace. -/
structure Out (α : Type) where
  res : Except Err α
  st : ClientState
  tr : List Op
deriving Repr

/-- Modelled from the spec: `sql.DB.Begin` on the in-memory backend, which
always succeeds. -/
def backendBegin : Except Err Unit := .ok ()

/-- Modelled from the spec: `sql.Tx.Commit` makes the working state durable;
the commit itself may fail (the outcome is the `ok` parameter, standing for
the nondeterministic backend result). -/
def backendCommit (ok : Bool) (cur : DBState) : Except Err DBState :=
  if ok then .ok cur else .error .CommitFailed

/-- Modelled from the spec: `sql.Tx.Rollback` discards the working state of
the in-memory backend, which always succeeds. -/
def backendRollback (base : DBState) : Except Err DBState := .ok base

namespace Client

/-- The insertLabels loop: one Label row per entry of the model's label
mapping, tagged with the model's kind and primary key; stops at the first
failing insert, keeping the rows already written. -/
def insertLabelsGo (kind : String) (pk : Nat) :
    DBState → List (String × String) → DBState × Option Err
  | db, [] => (db, none)
  | db, (n, v) :: rest =>
    match tableInsertLabel db { parent := pk, kind := kind, name := n, value := v } with
    | .error e => (db, some e)
    | .ok db1 => insertLabelsGo kind pk db1 rest

/-- Client.insertLabels. -/
def insertLabels (db : DBState) (m : Model) : DBState × Option Err :=
  insertLabelsGo m.kind m.pk db m.labels

/-- The deleteLabels loop over the listed Label rows. -/
def deleteLabelsGo : DBState → List Label → DBState × Option Err
  | db, [] => (db, none)
  | db, l :: rest =>
    match tableDeleteLabel db l with
    | .error e => (db, some e)
    | .ok db1 => deleteLabelsGo db1 rest

/-- Client.deleteLabels: list the Label rows for (Kind, Parent), then
delete each. -/
def deleteLabels (db : DBState) (m : Model) : DBState × Option Err :=
  deleteLabelsGo db (tableListLabels db m.kind m.pk)

/-- Client.replaceLabels: delete all labels for the key, then re-insert
from the model's current mapping. -/
def replaceLabels (db : DBState) (m : Model) : DBState × Option Err :=
  match deleteLabels db m with
  | (db1, some e) => (db1, some e)
  | (db1, none) => insertLabels db1 m

/-- The working database a mutation writes through: `r.db` on the
autocommit path, the open `r.tx` otherwise. -/
def effDb (s : ClientState) : DBState :=
  match s.tx with
  | none => s.base
  | some _ => s.cur

/-- Write back the mutated database: an autocommit statement is durable at
once (`base` and `cur` both advance), a transactional write only advances
the working state. -/
def putDb (s : ClientState) (db : DBState) : ClientState :=
  match s.tx with
  | none => { s with base := db, cur := db }
  | some _ => { s with cur := db }

/-- Trace prefix of a mutation: take the state lock, and on the autocommit
path also the dbMutex. -/
def mutPre (s : ClientState) : List Op :=
  match s.tx with
  | none => [Op.lockState, Op.lockDb]
  | some _ => [Op.lockState]

/-- Trace suffix of a mutation: the deferred unlocks (dbMutex first). -/
def mutPost (s : ClientState) : List Op :=
  match s.tx with
  | none => [Op.unlockDb, Op.unlockState]
  | some _ => [Op.unlockState]

/-- Client.Get: read through `r.db` (the committed state). -/
def get (s : ClientState) (m : Model) : Except Err Model :=
  tableGet s.base m

/-- Client.Begin: take the state lock, take the dbMutex, open the backend
transaction and record it as active.  On a backend Begin failure the
dbMutex is not released (faithfully to the source). -/
def beginTx (s : ClientState) : Out Nat :=
  match backendBegin with
  | .error e =>
    { res := .error e,
      st := { s with dbLocked := true },
      tr := [Op.lockState, Op.lockDb, Op.unlockState] }
  | .ok _ =>
    { res := .ok s.nextTxId,
      st := { s with
                dbLocked := true,
                tx := some s.nextTxId,
                cur := s.base,
                nextTxId := s.nextTxId + 1 },
      tr := [Op.lockState, Op.lockDb, Op.backendBegin, Op.unlockState] }

/-- Client.Insert: mapper insert, then label insert, then stage a Created
entry; on the autocommit path, commit the journal before returning. -/
def insert (s : ClientState) (m : Model) : Out Unit :=
  match tableInsert (effDb s) m with
  | .error e =>
    { res := .error e, st := s, tr := mutPre s ++ mutPost s }
  | .ok db1 =>
    match insertLabels db1 m with
    | (db2, some e) =>
      { res := .error e, st := putDb s db2, tr := mutPre s ++ mutPost s }
    | (db2, none) =>
      match s.tx with
      | none =>
        { res := .ok (),
          st := { putDb s db2 with journal := (s.journal.created m).commit },
          tr := mutPre s ++ [Op.stage Action.Created, Op.journalCommit] ++ mutPost s }
      | some _ =>
        { res := .ok (),
          st := { putDb s db2 with journal := s.journal.created m },
          tr := mutPre s ++ [Op.stage Action.Created] ++ mutPost s }

/-- Client.Update: re-fetch the current row (the prior snapshot for the
journal); on Get failure abort before any write.  Then mapper update,
label replace, stage an Updated entry, and on the autocommit path commit
the journal. -/
def update (s : ClientState) (m : Model) : Out Unit :=
  match tableGet (effDb s) (journalCopy m) with
  | .error e =>
    { res := .error e, st := s, tr := mutPre s ++ mutPost s }
  | .ok current =>
    match tableUpdate (effDb s) m with
    | .error e =>
      { res := .error e, st := s, tr := mutPre s ++ mutPost s }
    | .ok db1 =>
      match replaceLabels db1 m with
      | (db2, some e) =>
        { res := .error e, st := putDb s db2, tr := mutPre s ++ mutPost s }
      | (db2, none) =>
        match s.tx with
        | none =>
          { res := .ok (),
            st := { putDb s db2 with journal := (s.journal.updated current m).commit },
            tr := mutPre s ++ [Op.stage Action.Updated, Op.journalCommit] ++ mutPost s }
        | some _ =>
          { res := .ok (),
            st := { putDb s db2 with journal := s.journal.updated current m },
            tr := mutPre s ++ [Op.stage Action.Updated] ++ mutPost s }

/-- Client.Delete: mapper delete, then delete the model's labels, then
stage a Deleted entry; on the autocommit path, commit the journal. -/
def delete (s : ClientState) (m : Model) : Out Unit :=
  match tableDelete (effDb s) m with
  | .error e =>
    { res := .error e, st := s, tr := mutPre s ++ mutPost s }
  | .ok db1 =>
    match deleteLabels db1 m with
    | (db2, some e) =>
      { res := .error e, st := putDb s db2, tr := mutPre s ++ mutPost s }
    | (db2, none) =>
      match s.tx with
      | none =>
        { res := .ok (),
          st := { putDb s db2 with journal := (s.journal.deleted m).commit },
          tr := mutPre s ++ [Op.stage Action.Deleted, Op.journalCommit] ++ mutPost s }
      | some _ =>
        { res := .ok (),
          st := { putDb s db2 with journal := s.journal.deleted m },
          tr := mutPre s ++ [Op.stage Action.Deleted] ++ mutPost s }

/-- Client.Watch: under the state lock, register the watch with the
journal, list the existing rows through `r.db`, replay each as a synthetic
Created event, then start the watch. -/
def watch (s : ClientState) (kind : String) : Out Nat :=
  match s.journal.registerWatch kind with
  | (j1, wid) =>
    let rows := tableListKind s.base kind
    let j2 := rows.foldl (fun j m => j.notifyWatch wid (createdEvent m)) j1
    let j3 := j2.startWatch wid
    { res := .ok wid,
      st := { s with journal := j3 },
      tr := [Op.lockState, Op.registerWatch kind, Op.snapshotList kind]
              ++ rows.map (fun m => Op.notify m.pk)
              ++ [Op.startWatch, Op.unlockState] }

/-- Client.commit: guard that `tx` is the active transaction; commit the
backend transaction and, only when that succeeded, commit the journal.
The deferred block clears the active transaction and releases the dbMutex
on both outcomes of the backend commit. -/
def commit (s : ClientState) (txRef : Nat) (ok : Bool) : Out Unit :=
  if s.tx = some txRef then
    match backendCommit ok s.cur with
    | .error e =>
      { res := .error e,
        st := { s with tx := none, dbLocked := false, cur := s.base },
        tr := [Op.lockState, Op.backendCommit ok, Op.unlockDb, Op.unlockState] }
    | .ok db =>
      { res := .ok (),
        st := { s with tx := none, dbLocked := false, base := db, cur := db,
                       journal := s.journal.commit },
        tr := [Op.lockState, Op.backendCommit ok, Op.journalCommit, Op.unlockDb, Op.unlockState] }
  else
    { res := .error .TxInvalid, st := s, tr := [Op.lockState, Op.unlockState] }

/-- Client.end: guard that `tx` is the active transaction; roll the backend
transaction back and unstage the journal.  The deferred block clears the
active transaction and releases the dbMutex. -/
def endTx (s : ClientState) (txRef : Nat) : Out Unit :=
  if s.tx = some txRef then
    match backendRollback s.base with
    | .error e =>
      { res := .error e,
        st := { s with tx := none, dbLocked := false },
        tr := [Op.lockState, Op.backendRollback, Op.unlockDb, Op.unlockState] }
    | .ok db =>
      { res := .ok (),
        st := { s with tx := none, dbLocked := false, cur := db,
                       journal := s.journal.unstage },
        tr := [Op.lockState, Op.backendRollback, Op.journalUnstage, Op.unlockDb, Op.unlockState] }
  else
    { res := .error .TxInvalid, st := s, tr := [Op.lockState, Op.unlockState] }

/-- Result of Client.GetForUpdate: populated model or error, the returned
open transaction (nil on failure), successor state, and trace. -/
structure OutTx where
  res : Except Err Model
  tx : Option Nat
  st : ClientState
  tr : List Op
deriving Repr

/-- Client.GetForUpdate: Begin, then Get through `r.db`; on a Get failure
the internal transaction is ended and a nil Tx returned with the error. -/
def getForUpdate (s : ClientState) (m : Model) : OutTx :=
  let b := beginTx s
  match b.res with
  | .error e => { res := .error e, tx := none, st := b.st, tr := b.tr }
  | .ok tid =>
    match tableGet b.st.base m with
    | .error e =>
      let f := endTx b.st tid
      { res := .error e, tx := none, st := f.st, tr := b.tr ++ f.tr }
    | .ok populated =>
      { res := .ok populated, tx := some tid, st := b.st, tr := b.tr }

end Client

/-- Op `a` occurs strictly before op `b` in the trace. -/
def precedes (tr : List Op) (a b : Op) : Prop :=
  ∃ i j, i < j ∧ tr.get? i = some a ∧ tr.get? j = some b

/-- The Label rows stored for the key (kind, pk) are exactly the entries of
the mapping `lbls`: a row with that key and (name, value) exists iff the
mapping contains (name, value). -/
def labelsMatch (db : DBState) (kind : String) (pk : Nat) (lbls : List (String × String)) : Prop :=
  ∀ n v, ({ parent := pk, kind := kind, name := n, value := v } : Label) ∈ db.labels ↔ (n, v) ∈ lbls

/-- Concrete fixture: the empty database. -/
def dbEmpty : DBState := { rows := [], labels := [] }

/-- Concrete fixture: a model with one label. -/
def mOne : Model := { kind := "VM", pk := 1, data := 10, labels := [("env", "prod")] }

/-- Concrete fixture: the same key as `mOne` with changed payload and label. -/
def mOneB : Model := { kind := "VM", pk := 1, data := 11, labels := [("env", "stage")] }

/-- Concrete fixture: a second model without labels. -/
def mTwo : Model := { kind := "VM", pk := 2, data := 20, labels := [] }

/-- Concrete fixture: the empty journal. -/
def jEmpty : Journal := { staged := [], watches := [], nextWatchId := 0 }

/-- Concrete fixture: a freshly opened store. -/
def sEmpty : ClientState :=
  { base := dbEmpty, cur := dbEmpty, tx := none, dbLocked := false,
    nextTxId := 0, journal := jEmpty }

/-- Concrete fixture: the store after an autocommitted insert of `mOne`. -/
def sOne : ClientState := (Client.insert sEmpty mOne).st

/-- Concrete fixture: `sOne` with an open transaction (id 0). -/
def sTx : ClientState := (Client.beginTx sOne).st

/-- Concrete fixture: a database holding a stale label row for the key of
`mOne` but no model row, so a model insert succeeds and the following
label insert hits the duplicate and fails. -/
def dbStale : DBState :=
  { rows := [], labels := [{ parent := 1, kind := "VM", name := "env", value := "old" }] }

/-- Concrete fixture: a store over `dbStale`. -/
def sStale : ClientState :=
  { base := dbStale, cur := dbStale, tx := none, dbLocked := false,
    nextTxId := 0, journal := jEmpty }

/-- Concrete fixture: `dbStale` after the primary-row insert of `mOne`
succeeded (the stale label row is still there). -/
def dbStaleIns : DBState := { rows := [mOne], labels := dbStale.labels }

/-- C3: Tx.End() on the valid active Tx fully discards the write unit: the
backend transaction is rolled back (working state reverts to the committed
base), all staged journal entries are discarded without dispatch (no
journal commit occurs, every watch's delivered events are untouched), and
both the rollback and the unstage happen in that execution. -/
theorem C3_end_discards_both (s : ClientState) (t : Nat) (h : s.tx = some t) :
    (Client.endTx s t).res = .ok () ∧
    (Client.endTx s t).st.cur = s.base ∧
    (Client.endTx s t).st.journal.staged = [] ∧
    (Client.endTx s t).st.journal.watches = s.journal.watches ∧
    Op.journalCommit ∉ (Client.endTx s t).tr ∧
    Op.backendRollback ∈ (Client.endTx s t).tr ∧
    Op.journalUnstage ∈ (Client.endTx s t).tr := by
  simp [Client.endTx, h, backendRollback, Journal.unstage]

/-- C3 witness: ending the transaction staged by an insert of `mTwo` inside
the open Tx of `sTx` dispatches nothing and rolls everything back. -/
theorem C3_end_discards_both_witness :
    (Client.insert sTx mTwo).st.tx = some 0 ∧
    ((Client.endTx (Client.insert sTx mTwo).st 0).res = .ok () ∧
     (Client.endTx (Client.insert sTx mTwo).st 0).st.cur = (Client.insert sTx mTwo).st.base ∧
     (Client.endTx (Client.insert sTx mTwo).st 0).st.journal.staged = [] ∧
     (Client.endTx (Client.insert sTx mTwo).st 0).st.journal.watches =
       (Client.insert sTx mTwo).st.journal.watches ∧
     Op.journalCommit ∉ (Client.endTx (Client.insert sTx mTwo).st 0).tr ∧
     Op.backendRollback ∈ (Client.endTx (Client.insert sTx mTwo).st 0).tr ∧
     Op.journalUnstage ∈ (Client.endTx (Client.insert sTx mTwo).st 0).tr) :=
  ⟨by decide, C3_end_discards_both (Client.insert sTx mTwo).st 0 (by decide)⟩

/-- C5: Commit and End are terminal and not idempotent: with no matching
active transaction both fail with TransactionInvalid and change nothing;
a successful-or-failed Commit/End of the valid transaction clears the
active transaction, so a second Commit or End (in any combination) fails
with TransactionInvalid. -/
theorem C5_commit_end_terminal (s : ClientState) (t : Nat) (ok ok2 : Bool) :
    (s.tx ≠ some t →
       (Client.commit s t ok).res = .error .TxInvalid ∧ (Client.commit s t ok).st = s ∧
       (Client.endTx s t).res = .error .TxInvalid ∧ (Client.endTx s t).st = s) ∧
    (s.tx = some t →
       (Client.commit s t ok).st.tx = none ∧ (Client.endTx s t).st.tx = none ∧
       (Client.commit (Client.commit s t ok).st t ok2).res = .error .TxInvalid ∧
       (Client.endTx (Client.commit s t ok).st t).res = .error .TxInvalid ∧
       (Client.commit (Client.endTx s t).st t ok2).res = .error .TxInvalid ∧
       (Client.endTx (Client.endTx s t).st t).res = .error .TxInvalid) := by
  constructor
  · intro h
    simp [Client.commit, Client.endTx, h]
  · intro h
    cases ok with
    | false =>
        simp [Client.commit, Client.endTx, h, backendCommit, backendRollback]
    | true =>
        simp [Client.commit, Client.endTx, h, backendCommit, backendRollback]

/-- C5 witness: committing the open Tx of `sTx` then committing or ending
again fails with TransactionInvalid; Commit/End against a mismatched
reference fails as well. -/
theorem C5_commit_end_terminal_witness :
    (sTx.tx = some 0 ∧
       (Client.commit (Client.commit sTx 0 true).st 0 true).res = .error .TxInvalid ∧
       (Client.endTx (Client.commit sTx 0 true).st 0).res = .error .TxInvalid) ∧
    (sTx.tx ≠ some 7 ∧ (Client.commit sTx 7 true).res = .error .TxInvalid) :=
  ⟨⟨by decide,
    ((C5_commit_end_terminal sTx 0 true true).2 (by decide)).2.2.1,
    ((C5_commit_end_terminal sTx 0 true true).2 (by decide)).2.2.2.1⟩,
   ⟨by decide,
    ((C5_commit_end_terminal sTx 7 true true).1 (by decide)).1⟩⟩

/-- C6: Update first re-fetches the current row; when the row is absent the
fetch fails with NotFound and Update aborts before any write: the state
(backend rows, labels, journal) is unchanged, nothing is staged and no
journal commit occurs. -/
theorem C6_update_aborts_on_missing_row (s : ClientState) (m : Model)
    (h : (Client.effDb s).getRow m.kind m.pk = none) :
    (Client.update s m).res = .error .NotFound ∧
    (Client.update s m).st = s ∧
    Op.stage Action.Updated ∉ (Client.update s m).tr ∧
    Op.journalCommit ∉ (Client.update s m).tr := by
  have hg : tableGet (Client.effDb s) (journalCopy m) = .error .NotFound := by
    simp [tableGet, journalCopy, h]
  cases htx : s.tx with
  | none =>
      simp [Client.update, hg, Client.mutPre, Client.mutPost, htx]
  | some t =>
      simp [Client.update, hg, Client.mutPre, Client.mutPost, htx]

/-- C6 witness: updating the never-inserted `mTwo` in the fresh store fails
with NotFound and leaves the store untouched. -/
theorem C6_update_aborts_on_missing_row_witness :
    (Client.effDb sEmpty).getRow mTwo.kind mTwo.pk = none ∧
    ((Client.update sEmpty mTwo).res = .error .NotFound ∧
     (Client.update sEmpty mTwo).st = sEmpty ∧
     Op.stage Action.Updated ∉ (Client.update sEmpty mTwo).tr ∧
     Op.journalCommit ∉ (Client.update sEmpty mTwo).tr) :=
  ⟨by decide, C6_update_aborts_on_missing_row sEmpty mTwo (by decide)⟩

/-- C10: when the backend commit fails inside Tx.Commit, the transaction
is still terminated — the active reference is cleared and the dbMutex
released — while the journal is left exactly as it was: staged entries are
neither dispatched (no journal commit, watches untouched) nor unstaged,
and the next Journal.Commit still flushes exactly those entries. -/
theorem C10_failed_commit_keeps_staged (s : ClientState) (t : Nat) (h : s.tx = some t) :
    (Client.commit s t false).res = .error .CommitFailed ∧
    (Client.commit s t false).st.tx = none ∧
    (Client.commit s t false).st.dbLocked = false ∧
    Op.unlockDb ∈ (Client.commit s t false).tr ∧
    (Client.commit s t false).st.journal = s.journal ∧
    Op.journalCommit ∉ (Client.commit s t false).tr ∧
    Op.journalUnstage ∉ (Client.commit s t false).tr ∧
    (Client.commit s t false).st.journal.commit = s.journal.commit := by
  simp [Client.commit, h, backendCommit]

/-- C10 witness: a failed backend commit of the Tx of `sTx` holding one
staged insert keeps that entry staged but terminates the transaction. -/
theorem C10_failed_commit_keeps_staged_witness :
    (Client.insert sTx mTwo).st.tx = some 0 ∧
    ((Client.commit (Client.insert sTx mTwo).st 0 false).res = .error .CommitFailed ∧
     (Client.commit (Client.insert sTx mTwo).st 0 false).st.tx = none ∧
     (Client.commit (Client.insert sTx mTwo).st 0 false).st.dbLocked = false ∧
     Op.unlockDb ∈ (Client.commit (Client.insert sTx mTwo).st 0 false).tr ∧
     (Client.commit (Client.insert sTx mTwo).st 0 false).st.journal =
       (Client.insert sTx mTwo).st.journal ∧
     Op.journalCommit ∉ (Client.commit (Client.insert sTx mTwo).st 0 false).tr ∧
     Op.journalUnstage ∉ (Client.commit (Client.insert sTx mTwo).st 0 false).tr ∧
     (Client.commit (Client.insert sTx mTwo).st 0 false).st.journal.commit =
       (Client.insert sTx mTwo).st.journal.commit) :=
  ⟨by decide, C10_failed_commit_keeps_staged (Client.insert sTx mTwo).st 0 (by decide)⟩

theorem insert_st_dbLocked (s : ClientState) (m : Model) :
    (Client.insert s m).st.dbLocked = s.dbLocked := by
  unfold Client.insert
  cases h1 : tableInsert (Client.effDb s) m with
  | error e => rfl
  | ok db1 =>
      rcases h2 : Client.insertLabels db1 m with ⟨db2, oe⟩
      cases oe <;> cases htx : s.tx <;> simp [h2, Client.putDb, htx]

theorem update_st_dbLocked (s : ClientState) (m : Model) :
    (Client.update s m).st.dbLocked = s.dbLocked := by
  unfold Client.update
  cases h0 : tableGet (Client.effDb s) (journalCopy m) with
  | error e => rfl
  | ok current =>
      cases h1 : tableUpdate (Client.effDb s) m with
      | error e => rfl
      | ok db1 =>
          rcases h2 : Client.replaceLabels db1 m with ⟨db2, oe⟩
          cases oe <;> cases htx : s.tx <;> simp [h2, Client.putDb, htx]

theorem delete_st_dbLocked (s : ClientState) (m : Model) :
    (Client.delete s m).st.dbLocked = s.dbLocked := by
  unfold Client.delete
  cases h1 : tableDelete (Client.effDb s) m with
  | error e => rfl
  | ok db1 =>
      rcases h2 : Client.deleteLabels db1 m with ⟨db2, oe⟩
      cases oe <;> cases htx : s.tx <;> simp [h2, Client.putDb, htx]

theorem insert_tr_tx (s : ClientState) (m : Model) (t' : Nat) (h : s.tx = some t') :
    Op.lockDb ∉ (Client.insert s m).tr ∧ Op.unlockDb ∉ (Client.insert s m).tr ∧
    Op.journalCommit ∉ (Client.insert s m).tr := by
  unfold Client.insert
  cases h1 : tableInsert (Client.effDb s) m with
  | error e => simp [Client.mutPre, Client.mutPost, h]
  | ok db1 =>
      rcases h2 : Client.insertLabels db1 m with ⟨db2, oe⟩
      cases oe <;> simp [h2, Client.mutPre, Client.mutPost, h]

theorem update_tr_tx (s : ClientState) (m : Model) (t' : Nat) (h : s.tx = some t') :
    Op.lockDb ∉ (Client.update s m).tr ∧ Op.unlockDb ∉ (Client.update s m).tr ∧
    Op.journalCommit ∉ (Client.update s m).tr := by
  unfold Client.update
  cases h0 : tableGet (Client.effDb s) (journalCopy m) with
  | error e => simp [Client.mutPre, Client.mutPost, h]
  | ok current =>
      cases h1 : tableUpdate (Client.effDb s) m with
      | error e => simp [Client.mutPre, Client.mutPost, h]
      | ok db1 =>
          rcases h2 : Client.replaceLabels db1 m with ⟨db2, oe⟩
          cases oe <;> simp [h2, Client.mutPre, Client.mutPost, h]

theorem delete_tr_tx (s : ClientState) (m : Model) (t' : Nat) (h : s.tx = some t') :
    Op.lockDb ∉ (Client.delete s m).tr ∧ Op.unlockDb ∉ (Client.delete s m).tr ∧
    Op.journalCommit ∉ (Client.delete s m).tr := by
  unfold Client.delete
  cases h1 : tableDelete (Client.effDb s) m with
  | error e => simp [Client.mutPre, Client.mutPost, h]
  | ok db1 =>
      rcases h2 : Client.deleteLabels db1 m with ⟨db2, oe⟩
      cases oe <;> simp [h2, Client.mutPre, Client.mutPost, h]

theorem insert_auto_ok (s : ClientState) (m : Model) (h : s.tx = none)
    (hok : (Client.insert s m).res.isOk) :
    Op.journalCommit ∈ (Client.insert s m).tr ∧
    (Client.insert s m).st.journal = (s.journal.created m).commit := by
  unfold Client.insert at hok ⊢
  cases h1 : tableInsert (Client.effDb s) m with
  | error e => simp only [h1, Except.isOk, Except.toBool] at hok; exact Bool.noConfusion hok
  | ok db1 =>
      rcases h2 : Client.insertLabels db1 m with ⟨db2, oe⟩
      cases oe with
      | some e => simp only [h1, h2, Except.isOk, Except.toBool] at hok; exact Bool.noConfusion hok
      | none => simp [h2, h, Client.mutPre, Client.mutPost]

theorem update_auto_ok (s : ClientState) (m : Model) (h : s.tx = none)
    (hok : (Client.update s m).res.isOk) :
    Op.journalCommit ∈ (Client.update s m).tr ∧
    ∃ priorM, (Client.update s m).st.journal = (s.journal.updated priorM m).commit := by
  unfold Client.update at hok ⊢
  cases h0 : tableGet (Client.effDb s) (journalCopy m) with
  | error e => simp only [h0, Except.isOk, Except.toBool] at hok; exact Bool.noConfusion hok
  | ok current =>
      cases h1 : tableUpdate (Client.effDb s) m with
      | error e => simp only [h0, h1, Except.isOk, Except.toBool] at hok; exact Bool.noConfusion hok
      | ok db1 =>
          rcases h2 : Client.replaceLabels db1 m with ⟨db2, oe⟩
          cases oe with
          | some e => simp only [h0, h1, h2, Except.isOk, Except.toBool] at hok; exact Bool.noConfusion hok
          | none =>
              refine ⟨?_, current, ?_⟩ <;>
                simp [h1, h2, h, Client.mutPre, Client.mutPost]

theorem delete_auto_ok (s : ClientState) (m : Model) (h : s.tx = none)
    (hok : (Client.delete s m).res.isOk) :
    Op.journalCommit ∈ (Client.delete s m).tr ∧
    (Client.delete s m).st.journal = (s.journal.deleted m).commit := by
  unfold Client.delete at hok ⊢
  cases h1 : tableDelete (Client.effDb s) m with
  | error e => simp only [h1, Except.isOk, Except.toBool] at hok; exact Bool.noConfusion hok
  | ok db1 =>
      rcases h2 : Client.deleteLabels db1 m with ⟨db2, oe⟩
      cases oe with
      | some e => simp only [h1, h2, Except.isOk, Except.toBool] at hok; exact Bool.noConfusion hok
      | none => simp [h2, h, Client.mutPre, Client.mutPost]

theorem insert_auto_locks (s : ClientState) (m : Model) (h : s.tx = none) :
    Op.lockDb ∈ (Client.insert s m).tr ∧ Op.unlockDb ∈ (Client.insert s m).tr := by
  unfold Client.insert
  cases h1 : tableInsert (Client.effDb s) m with
  | error e => simp [Client.mutPre, Client.mutPost, h]
  | ok db1 =>
      rcases h2 : Client.insertLabels db1 m with ⟨db2, oe⟩
      cases oe <;> simp [h2, Client.mutPre, Client.mutPost, h]

/-- C1: an autocommit mutation (no active Tx) stages its journal entry and
commits the journal before returning (the dispatch step is in the call's
own trace and the resulting journal is the staged-then-committed one);
inside an active Tx no mutation commits the journal, and Tx.Commit
dispatches the staged entries exactly when the backend commit succeeded,
with the backend commit strictly before the journal commit in its trace. -/
theorem C1_journal_commit_discipline (s : ClientState) (m : Model) (t : Nat) :
    (s.tx = none →
       ((Client.insert s m).res.isOk →
          Op.journalCommit ∈ (Client.insert s m).tr ∧
          (Client.insert s m).st.journal = (s.journal.created m).commit) ∧
       ((Client.update s m).res.isOk →
          Op.journalCommit ∈ (Client.update s m).tr ∧
          ∃ priorM, (Client.update s m).st.journal = (s.journal.updated priorM m).commit) ∧
       ((Client.delete s m).res.isOk →
          Op.journalCommit ∈ (Client.delete s m).tr ∧
          (Client.delete s m).st.journal = (s.journal.deleted m).commit)) ∧
    (∀ t', s.tx = some t' →
       Op.journalCommit ∉ (Client.insert s m).tr ∧
       Op.journalCommit ∉ (Client.update s m).tr ∧
       Op.journalCommit ∉ (Client.delete s m).tr) ∧
    (s.tx = some t →
       (Client.commit s t true).res = .ok () ∧
       (Client.commit s t true).st.journal = s.journal.commit ∧
       precedes (Client.commit s t true).tr (Op.backendCommit true) Op.journalCommit ∧
       Op.journalCommit ∉ (Client.commit s t false).tr) := by
  refine ⟨?_, ?_, ?_⟩
  · intro h
    exact ⟨fun hok => insert_auto_ok s m h hok,
           fun hok => update_auto_ok s m h hok,
           fun hok => delete_auto_ok s m h hok⟩
  · intro t' h
    exact ⟨(insert_tr_tx s m t' h).2.2, (update_tr_tx s m t' h).2.2,
           (delete_tr_tx s m t' h).2.2⟩
  · intro h
    refine ⟨?_, ?_, ⟨1, 2, ?_, ?_, ?_⟩, ?_⟩ <;>
      simp [Client.commit, h, backendCommit, precedes]

/-- C1 witness: the autocommit insert of `mOne` into the fresh store
commits the journal in-call; the insert of `mTwo` inside the open Tx of
`sTx` does not; committing that Tx dispatches the staged entry. -/
theorem C1_journal_commit_discipline_witness :
    (sEmpty.tx = none ∧ (Client.insert sEmpty mOne).res.isOk ∧
       Op.journalCommit ∈ (Client.insert sEmpty mOne).tr) ∧
    (sTx.tx = some 0 ∧ Op.journalCommit ∉ (Client.insert sTx mTwo).tr) ∧
    precedes (Client.commit sTx 0 true).tr (Op.backendCommit true) Op.journalCommit :=
  ⟨⟨rfl, by decide,
    (((C1_journal_commit_discipline sEmpty mOne 0).1 rfl).1 (by decide)).1⟩,
   ⟨by decide,
    (((C1_journal_commit_discipline sTx mTwo 0).2.1) 0 (by decide)).1⟩,
   (((C1_journal_commit_discipline sTx mTwo 0).2.2) (by decide)).2.2.1⟩

/-- C7: GetForUpdate begins a transaction and performs the Get; when the
key is absent the Get fails with NotFound, the internal transaction is
ended (no active transaction remains and the write lock is released) and
a nil Tx is returned with the error; on success the populated model is
returned together with the still-open Tx. -/
theorem C7_getForUpdate_no_dangling_tx (s : ClientState) (m : Model) :
    (s.base.getRow m.kind m.pk = none →
       (Client.getForUpdate s m).res = .error .NotFound ∧
       (Client.getForUpdate s m).tx = none ∧
       (Client.getForUpdate s m).st.tx = none ∧
       (Client.getForUpdate s m).st.dbLocked = false) ∧
    (∀ r, s.base.getRow m.kind m.pk = some r →
       (Client.getForUpdate s m).res = .ok r ∧
       (Client.getForUpdate s m).tx = some s.nextTxId ∧
       (Client.getForUpdate s m).st.tx = some s.nextTxId ∧
       (Client.getForUpdate s m).st.dbLocked = true) := by
  constructor
  · intro h
    simp [Client.getForUpdate, Client.beginTx, backendBegin, tableGet, h,
          Client.endTx, backendRollback]
  · intro r h
    simp [Client.getForUpdate, Client.beginTx, backendBegin, tableGet, h]

/-- C7 witness: GetForUpdate of the never-inserted `mTwo` returns NotFound
with no Tx left open; GetForUpdate of the stored `mOne` returns the stored
row and the open Tx. -/
theorem C7_getForUpdate_no_dangling_tx_witness :
    (sOne.base.getRow mTwo.kind mTwo.pk = none ∧
       (Client.getForUpdate sOne mTwo).res = .error .NotFound ∧
       (Client.getForUpdate sOne mTwo).st.tx = none ∧
       (Client.getForUpdate sOne mTwo).st.dbLocked = false) ∧
    (sOne.base.getRow mOne.kind mOne.pk = some mOne ∧
       (Client.getForUpdate sOne mOne).res = .ok mOne ∧
       (Client.getForUpdate sOne mOne).tx = some sOne.nextTxId) := by
  have h1 := (C7_getForUpdate_no_dangling_tx sOne mTwo).1 (by decide)
  have h2 := (C7_getForUpdate_no_dangling_tx sOne mOne).2 mOne (by decide)
  exact ⟨⟨by decide, h1.1, h1.2.2.1, h1.2.2.2⟩, ⟨by decide, h2.1, h2.2.1⟩⟩

/-- C8: Begin takes the dbMutex strictly before opening the backend
transaction, leaves it held on return, and never releases it itself;
mutations inside an open Tx neither take nor release the dbMutex and leave
it held; only Commit or End of the matching Tx release it; a Commit or End
that fails the guard leaves the lock as it was.  An autocommit mutation
takes and releases the dbMutex within its own call. -/
theorem C8_write_lock_span (s : ClientState) (m : Model) (t : Nat) (ok : Bool) :
    ((Client.beginTx s).st.dbLocked = true ∧
     Op.unlockDb ∉ (Client.beginTx s).tr ∧
     precedes (Client.beginTx s).tr Op.lockDb Op.backendBegin) ∧
    (∀ t', s.tx = some t' →
       Op.lockDb ∉ (Client.insert s m).tr ∧ Op.unlockDb ∉ (Client.insert s m).tr ∧
       Op.lockDb ∉ (Client.update s m).tr ∧ Op.unlockDb ∉ (Client.update s m).tr ∧
       Op.lockDb ∉ (Client.delete s m).tr ∧ Op.unlockDb ∉ (Client.delete s m).tr ∧
       (Client.insert s m).st.dbLocked = s.dbLocked ∧
       (Client.update s m).st.dbLocked = s.dbLocked ∧
       (Client.delete s m).st.dbLocked = s.dbLocked) ∧
    (s.tx = some t →
       Op.unlockDb ∈ (Client.commit s t ok).tr ∧ (Client.commit s t ok).st.dbLocked = false ∧
       Op.unlockDb ∈ (Client.endTx s t).tr ∧ (Client.endTx s t).st.dbLocked = false) ∧
    (s.tx ≠ some t →
       (Client.commit s t ok).st.dbLocked = s.dbLocked ∧
       (Client.endTx s t).st.dbLocked = s.dbLocked) ∧
    (s.tx = none →
       Op.lockDb ∈ (Client.insert s m).tr ∧ Op.unlockDb ∈ (Client.insert s m).tr) := by
  refine ⟨⟨?_, ?_, 1, 2, ?_, ?_, ?_⟩, ?_, ?_, ?_, ?_⟩
  · simp [Client.beginTx, backendBegin]
  · simp [Client.beginTx, backendBegin]
  · decide
  · simp [Client.beginTx, backendBegin]
  · simp [Client.beginTx, backendBegin]
  · intro t' h
    exact ⟨(insert_tr_tx s m t' h).1, (insert_tr_tx s m t' h).2.1,
           (update_tr_tx s m t' h).1, (update_tr_tx s m t' h).2.1,
           (delete_tr_tx s m t' h).1, (delete_tr_tx s m t' h).2.1,
           insert_st_dbLocked s m, update_st_dbLocked s m, delete_st_dbLocked s m⟩
  · intro h
    cases ok <;> simp [Client.commit, Client.endTx, h, backendCommit, backendRollback]
  · intro h
    simp [Client.commit, Client.endTx, h]
  · intro h
    exact insert_auto_locks s m h

/-- C8 witness: Begin on the fresh store holds the lock and opened the
backend transaction after taking it; the in-Tx insert leaves the lock
held; committing the Tx releases it; the autocommit insert takes and
releases it within the call. -/
theorem C8_write_lock_span_witness :
    ((Client.beginTx sEmpty).st.dbLocked = true ∧
       Op.unlockDb ∉ (Client.beginTx sEmpty).tr) ∧
    (sTx.tx = some 0 ∧ Op.unlockDb ∉ (Client.insert sTx mTwo).tr ∧
       (Client.insert sTx mTwo).st.dbLocked = sTx.dbLocked) ∧
    (Op.unlockDb ∈ (Client.commit sTx 0 true).tr ∧
       (Client.commit sTx 0 true).st.dbLocked = false) ∧
    (sEmpty.tx = none ∧ Op.lockDb ∈ (Client.insert sEmpty mOne).tr ∧
       Op.unlockDb ∈ (Client.insert sEmpty mOne).tr) := by
  have hb := (C8_write_lock_span sEmpty mOne 0 true).1
  have htx := (C8_write_lock_span sTx mTwo 0 true).2.1 0 (by decide)
  have hc := (C8_write_lock_span sTx mTwo 0 true).2.2.1 (by decide)
  have ha := (C8_write_lock_span sEmpty mOne 0 true).2.2.2.2 rfl
  exact ⟨⟨hb.1, hb.2.1⟩, ⟨by decide, htx.2.1, htx.2.2.2.2.2.2.1⟩,
         ⟨hc.1, hc.2.1⟩, ⟨rfl, ha.1, ha.2⟩⟩

theorem tableInsertLabel_ok (db db' : DBState) (l : Label)
    (h : tableInsertLabel db l = .ok db') :
    db' = { db with labels := db.labels ++ [l] } := by
  unfold tableInsertLabel at h
  split at h
  · cases h
  · cases h
    rfl

theorem tableInsert_ok (db db' : DBState) (m : Model) (h : tableInsert db m = .ok db') :
    db' = { db with rows := db.rows ++ [m] } := by
  unfold tableInsert at h
  cases hg : db.getRow m.kind m.pk <;> rw [hg] at h
  · cases h
    rfl
  · cases h

theorem tableUpdate_ok (db db' : DBState) (m : Model) (h : tableUpdate db m = .ok db') :
    db'.labels = db.labels := by
  unfold tableUpdate at h
  cases hg : db.getRow m.kind m.pk <;> rw [hg] at h
  · cases h
  · cases h
    rfl

theorem tableDelete_ok (db db' : DBState) (m : Model) (h : tableDelete db m = .ok db') :
    db'.labels = db.labels := by
  unfold tableDelete at h
  cases h
  rfl

theorem insertLabelsGo_ok (kind : String) (pk : Nat) :
    ∀ (lbls : List (String × String)) (db db' : DBState),
      Client.insertLabelsGo kind pk db lbls = (db', none) →
      db' = { db with
                labels := db.labels ++
                  lbls.map (fun p => { parent := pk, kind := kind, name := p.1, value := p.2 }) } := by
  intro lbls
  induction lbls with
  | nil =>
      intro db db' h
      simp [Client.insertLabelsGo] at h
      simp [h.symm]
  | cons p rest ih =>
      intro db db' h
      obtain ⟨n, v⟩ := p
      unfold Client.insertLabelsGo at h
      cases hins : tableInsertLabel db { parent := pk, kind := kind, name := n, value := v } with
      | error e =>
          rw [hins] at h
          simp at h
      | ok db1 =>
          rw [hins] at h
          have h1 := tableInsertLabel_ok db db1 _ hins
          have h2 := ih db1 db' h
          subst h1
          simp [h2, List.append_assoc]

theorem insertLabels_ok (db db' : DBState) (m : Model)
    (h : Client.insertLabels db m = (db', none)) :
    db' = { db with
              labels := db.labels ++
                m.labels.map (fun p => { parent := m.pk, kind := m.kind, name := p.1, value := p.2 }) } :=
  insertLabelsGo_ok m.kind m.pk m.labels db db' h

theorem deleteLabelsGo_eq :
    ∀ (ls : List Label) (db : DBState),
      Client.deleteLabelsGo db ls =
        ({ db with labels := db.labels.filter (fun x => !(ls.any (fun l => sameLabel x l))) }, none) := by
  intro ls
  induction ls with
  | nil =>
      intro db
      simp [Client.deleteLabelsGo]
  | cons l rest ih =>
      intro db
      rw [show Client.deleteLabelsGo db (l :: rest) =
            Client.deleteLabelsGo
              { db with labels := db.labels.filter (fun x => !(sameLabel x l)) } rest from rfl]
      rw [ih]
      rw [List.filter_filter]
      refine congrArg (fun z => (z, none)) ?_
      refine congrArg (fun z => { db with labels := z }) ?_
      refine List.filter_congr ?_
      intro x _
      simp [Bool.not_or, Bool.and_comm]

theorem sameLabel_self (x : Label) : sameLabel x x = true := by
  simp [sameLabel]

theorem deleteLabels_spec (db : DBState) (m : Model) :
    ∃ db', Client.deleteLabels db m = (db', none) ∧
      db'.rows = db.rows ∧
      (∀ x, x ∈ db'.labels ↔ x ∈ db.labels ∧ ¬(x.kind = m.kind ∧ x.parent = m.pk)) := by
  refine ⟨_, deleteLabelsGo_eq (tableListLabels db m.kind m.pk) db, rfl, ?_⟩
  intro x
  simp only [List.mem_filter, Bool.not_eq_true', List.any_eq_false]
  constructor
  · rintro ⟨hx, hall⟩
    refine ⟨hx, ?_⟩
    rintro ⟨hk, hp⟩
    have hmem : x ∈ tableListLabels db m.kind m.pk := by
      simp [tableListLabels, List.mem_filter, hx, hk, hp]
    have := hall x hmem
    simp [sameLabel_self] at this
  · rintro ⟨hx, hkey⟩
    refine ⟨hx, ?_⟩
    intro l hl
    simp only [tableListLabels, List.mem_filter] at hl
    obtain ⟨hl1, hl2⟩ := hl
    simp only [Bool.and_eq_true, beq_iff_eq] at hl2
    cases hsl : sameLabel x l with
    | false => simp
    | true =>
        intro _
        simp only [sameLabel, Bool.and_eq_true, beq_iff_eq] at hsl
        exact hkey ⟨by rw [hsl.1.1.2, hl2.1], by rw [hsl.1.1.1, hl2.2]⟩

theorem insert_ok_spec (s : ClientState) (m : Model)
    (hok : (Client.insert s m).res.isOk) :
    ∃ db1 db2, tableInsert (Client.effDb s) m = .ok db1 ∧
      Client.insertLabels db1 m = (db2, none) ∧
      (Client.insert s m).st.cur = db2 := by
  unfold Client.insert at hok ⊢
  cases h1 : tableInsert (Client.effDb s) m with
  | error e => simp only [h1, Except.isOk, Except.toBool] at hok; exact Bool.noConfusion hok
  | ok db1 =>
      rcases h2 : Client.insertLabels db1 m with ⟨db2, oe⟩
      cases oe with
      | some e => simp only [h1, h2, Except.isOk, Except.toBool] at hok; exact Bool.noConfusion hok
      | none =>
          refine ⟨db1, db2, rfl, h2, ?_⟩
          cases htx : s.tx <;> simp [h2, htx, Client.putDb]

theorem update_ok_spec (s : ClientState) (m : Model)
    (hok : (Client.update s m).res.isOk) :
    ∃ current db1 db2, tableGet (Client.effDb s) (journalCopy m) = .ok current ∧
      tableUpdate (Client.effDb s) m = .ok db1 ∧
      Client.replaceLabels db1 m = (db2, none) ∧
      (Client.update s m).st.cur = db2 := by
  unfold Client.update at hok ⊢
  cases h0 : tableGet (Client.effDb s) (journalCopy m) with
  | error e => simp only [h0, Except.isOk, Except.toBool] at hok; exact Bool.noConfusion hok
  | ok current =>
      cases h1 : tableUpdate (Client.effDb s) m with
      | error e =>
          simp only [h0, h1, Except.isOk, Except.toBool] at hok; exact Bool.noConfusion hok
      | ok db1 =>
          rcases h2 : Client.replaceLabels db1 m with ⟨db2, oe⟩
          cases oe with
          | some e =>
              simp only [h0, h1, h2, Except.isOk, Except.toBool] at hok
              exact Bool.noConfusion hok
          | none =>
              refine ⟨current, db1, db2, rfl, rfl, h2, ?_⟩
              cases htx : s.tx <;> simp [h1, h2, htx, Client.putDb]

theorem delete_ok_spec (s : ClientState) (m : Model)
    (hok : (Client.delete s m).res.isOk) :
    ∃ db1 db2, tableDelete (Client.effDb s) m = .ok db1 ∧
      Client.deleteLabels db1 m = (db2, none) ∧
      (Client.delete s m).st.cur = db2 := by
  unfold Client.delete at hok ⊢
  cases h1 : tableDelete (Client.effDb s) m with
  | error e => simp only [h1, Except.isOk, Except.toBool] at hok; exact Bool.noConfusion hok
  | ok db1 =>
      rcases h2 : Client.deleteLabels db1 m with ⟨db2, oe⟩
      cases oe with
      | some e => simp only [h1, h2, Except.isOk, Except.toBool] at hok; exact Bool.noConfusion hok
      | none =>
          refine ⟨db1, db2, rfl, h2, ?_⟩
          cases htx : s.tx <;> simp [h2, htx, Client.putDb]

/-- C4: after a successful Insert (into a state holding no label rows for
the model's key, as any state reachable through the store is) or Update,
the label rows stored for (Kind, Parent) are exactly the model's current
label mapping — neither a superset nor a subset; after a successful
Delete no label row remains for the key.  Update achieves this by
deleting every label for the key and re-inserting from the mapping
(`Client.replaceLabels` is definitionally delete-then-insert). -/
theorem C4_labels_mirror_mapping (s : ClientState) (m : Model) :
    ((tableListLabels (Client.effDb s) m.kind m.pk = [] →
        (Client.insert s m).res.isOk →
        labelsMatch (Client.insert s m).st.cur m.kind m.pk m.labels)) ∧
    ((Client.update s m).res.isOk →
        labelsMatch (Client.update s m).st.cur m.kind m.pk m.labels) ∧
    ((Client.delete s m).res.isOk →
        tableListLabels (Client.delete s m).st.cur m.kind m.pk = []) := by
  refine ⟨?_, ?_, ?_⟩
  · intro hpre hok
    obtain ⟨db1, db2, h1, h2, hcur⟩ := insert_ok_spec s m hok
    have hdb1 := tableInsert_ok _ _ _ h1
    have hdb2 := insertLabels_ok _ _ _ h2
    have hlab1 : db1.labels = (Client.effDb s).labels := by rw [hdb1]
    have hlab2 : db2.labels = db1.labels ++
        m.labels.map (fun p => { parent := m.pk, kind := m.kind, name := p.1, value := p.2 }) := by
      rw [hdb2]
    have hnone := List.filter_eq_nil_iff.mp hpre
    intro n v
    rw [hcur, hlab2, hlab1]
    simp only [List.mem_append, List.mem_map]
    constructor
    · rintro (hin | ⟨p, hp, hmk⟩)
      · exfalso
        have := hnone _ hin
        simp at this
      · obtain ⟨hn, hv⟩ := Label.mk.inj hmk.symm |>.2.2
        rw [hn, hv]
        exact hp
    · intro hnv
      exact Or.inr ⟨(n, v), hnv, rfl⟩
  · intro hok
    obtain ⟨current, db1, db2, h0, h1, h2, hcur⟩ := update_ok_spec s m hok
    obtain ⟨dbd, hdel, hrows, hmem⟩ := deleteLabels_spec db1 m
    have h2' : Client.insertLabels dbd m = (db2, none) := by
      unfold Client.replaceLabels at h2
      rw [hdel] at h2
      exact h2
    have hdb2 := insertLabels_ok _ _ _ h2'
    have hlab2 : db2.labels = dbd.labels ++
        m.labels.map (fun p => { parent := m.pk, kind := m.kind, name := p.1, value := p.2 }) := by
      rw [hdb2]
    intro n v
    rw [hcur, hlab2]
    simp only [List.mem_append, List.mem_map]
    constructor
    · rintro (hin | ⟨p, hp, hmk⟩)
      · exfalso
        exact ((hmem _).mp hin).2 ⟨rfl, rfl⟩
      · obtain ⟨hn, hv⟩ := Label.mk.inj hmk.symm |>.2.2
        rw [hn, hv]
        exact hp
    · intro hnv
      exact Or.inr ⟨(n, v), hnv, rfl⟩
  · intro hok
    obtain ⟨db1, db2, h1, h2, hcur⟩ := delete_ok_spec s m hok
    obtain ⟨dbd, hdel, hrows, hmem⟩ := deleteLabels_spec db1 m
    have hdd : db2 = dbd := by
      rw [h2] at hdel
      exact (Prod.mk.inj hdel).1
    rw [hcur, hdd]
    unfold tableListLabels
    rw [List.filter_eq_nil_iff]
    intro x hx
    have hnk := ((hmem x).mp hx).2
    intro hc
    simp only [Bool.and_eq_true, beq_iff_eq] at hc
    exact hnk hc

/-- C4 witness: inserting `mOne` into the fresh store and then updating it
to `mOneB` leaves the label table mirroring exactly the new mapping;
deleting it leaves no label rows for its key. -/
theorem C4_labels_mirror_mapping_witness :
    (tableListLabels (Client.effDb sEmpty) mOne.kind mOne.pk = [] ∧
       (Client.insert sEmpty mOne).res.isOk ∧
       labelsMatch (Client.insert sEmpty mOne).st.cur mOne.kind mOne.pk mOne.labels) ∧
    ((Client.update sOne mOneB).res.isOk ∧
       labelsMatch (Client.update sOne mOneB).st.cur mOneB.kind mOneB.pk mOneB.labels) ∧
    ((Client.delete sOne mOne).res.isOk ∧
       tableListLabels (Client.delete sOne mOne).st.cur mOne.kind mOne.pk = []) :=
  ⟨⟨by decide, by decide,
    (C4_labels_mirror_mapping sEmpty mOne).1 (by decide) (by decide)⟩,
   ⟨by decide, (C4_labels_mirror_mapping sOne mOneB).2.1 (by decide)⟩,
   ⟨by decide, (C4_labels_mirror_mapping sOne mOne).2.2 (by decide)⟩⟩

/-- C9: when the primary mapper operation of an Insert, Update or Delete
succeeds but the label synchronization that follows fails, the call
returns the label error, the journal is untouched — nothing is staged and
no journal commit occurs — so no watch can observe an event for the
partially applied mutation. -/
theorem C9_label_sync_failure_staging (s : ClientState) (m : Model) :
    (∀ db1 db2 e, tableInsert (Client.effDb s) m = .ok db1 →
        Client.insertLabels db1 m = (db2, some e) →
        (Client.insert s m).res = .error e ∧
        (Client.insert s m).st.journal = s.journal ∧
        Op.stage Action.Created ∉ (Client.insert s m).tr ∧
        Op.journalCommit ∉ (Client.insert s m).tr) ∧
    (∀ current db1 db2 e, tableGet (Client.effDb s) (journalCopy m) = .ok current →
        tableUpdate (Client.effDb s) m = .ok db1 →
        Client.replaceLabels db1 m = (db2, some e) →
        (Client.update s m).res = .error e ∧
        (Client.update s m).st.journal = s.journal ∧
        Op.stage Action.Updated ∉ (Client.update s m).tr ∧
        Op.journalCommit ∉ (Client.update s m).tr) ∧
    (∀ db1 db2 e, tableDelete (Client.effDb s) m = .ok db1 →
        Client.deleteLabels db1 m = (db2, some e) →
        (Client.delete s m).res = .error e ∧
        (Client.delete s m).st.journal = s.journal ∧
        Op.stage Action.Deleted ∉ (Client.delete s m).tr ∧
        Op.journalCommit ∉ (Client.delete s m).tr) := by
  refine ⟨?_, ?_, ?_⟩
  · intro db1 db2 e h1 h2
    unfold Client.insert
    simp only [h1, h2]
    cases htx : s.tx <;>
      simp [Client.putDb, Client.mutPre, Client.mutPost, htx]
  · intro current db1 db2 e h0 h1 h2
    unfold Client.update
    simp only [h0, h1, h2]
    cases htx : s.tx <;>
      simp [Client.putDb, Client.mutPre, Client.mutPost, htx]
  · intro db1 db2 e h1 h2
    unfold Client.delete
    simp only [h1, h2]
    cases htx : s.tx <;>
      simp [Client.putDb, Client.mutPre, Client.mutPost, htx]

/-- C9 witness: inserting `mOne` over a stale label row for its key — the
primary insert succeeds, the label insert hits the duplicate — returns the
constraint error with nothing staged and no journal commit. -/
theorem C9_label_sync_failure_staging_witness :
    tableInsert (Client.effDb sStale) mOne = .ok dbStaleIns ∧
    Client.insertLabels dbStaleIns mOne = (dbStaleIns, some Err.Constraint) ∧
    ((Client.insert sStale mOne).res = .error Err.Constraint ∧
     (Client.insert sStale mOne).st.journal = sStale.journal ∧
     Op.stage Action.Created ∉ (Client.insert sStale mOne).tr ∧
     Op.journalCommit ∉ (Client.insert sStale mOne).tr) :=
  ⟨rfl, rfl,
   (C9_label_sync_failure_staging sStale mOne).1 dbStaleIns dbStaleIns Err.Constraint rfl rfl⟩

theorem notifyFold_watches (rows : List Model) (j : Journal) (wid : Nat) :
    (rows.foldl (fun j m => j.notifyWatch wid (createdEvent m)) j).watches =
      j.watches.map
        (fun w => if w.id == wid
                  then { w with delivered := w.delivered ++ rows.map createdEvent }
                  else w) := by
  induction rows generalizing j with
  | nil =>
      simp only [List.foldl_nil, List.map_nil, List.append_nil]
      have hid : ∀ w ∈ j.watches,
          (if w.id == wid then { w with delivered := w.delivered } else w) = id w := by
        intro w _
        by_cases h : w.id == wid <;> simp [h]
      rw [List.map_congr_left hid, List.map_id]
  | cons r rest ih =>
      rw [List.foldl_cons, ih]
      have h1 : (j.notifyWatch wid (createdEvent r)).watches =
          j.watches.map
            (fun w => if w.id == wid
                      then { w with delivered := w.delivered ++ [createdEvent r] }
                      else w) := rfl
      rw [h1, List.map_map]
      refine List.map_congr_left ?_
      intro w _
      by_cases h : w.id == wid <;> simp [Function.comp, h]

theorem fold_then_start (j : Journal) (ws : List Watch) (w0 : Watch) (wid : Nat)
    (rows : List Model)
    (hws : j.watches = ws ++ [w0])
    (hfresh : ∀ w ∈ ws, (w.id == wid) = false)
    (h0 : (w0.id == wid) = true) :
    (((rows.foldl (fun j m => j.notifyWatch wid (createdEvent m)) j).startWatch wid)).watches =
      ws ++ [{ w0 with started := true, delivered := w0.delivered ++ rows.map createdEvent }] := by
  have hstart : ∀ (jj : Journal), (jj.startWatch wid).watches =
      jj.watches.map (fun w => if w.id == wid then { w with started := true } else w) :=
    fun jj => rfl
  rw [hstart, notifyFold_watches, hws, List.map_append, List.map_append]
  have hid1 : ∀ w ∈ ws,
      (if w.id == wid then { w with delivered := w.delivered ++ rows.map createdEvent } else w) =
        id w := by
    intro w hmem
    simp [hfresh w hmem]
  rw [List.map_congr_left hid1, List.map_id]
  have hid2 : ∀ w ∈ ws,
      (if w.id == wid then { w with started := true } else w) = id w := by
    intro w hmem
    simp [hfresh w hmem]
  rw [List.map_congr_left hid2, List.map_id]
  have h0' : w0.id = wid := by simpa using h0
  simp [h0']

/-- C2: a Watch call on a store with N rows of the target kind registers
the watch with the journal strictly before taking the snapshot List (both
inside the state-lock critical section of the one call), replays exactly
one synthetic Created event per existing row to the handler in List
order (the new watch's delivered list is exactly the row list mapped to
Created events — none missing, none duplicated), and only then starts the
watch: every notify step of the trace lies strictly between the
snapshot List step and the start step. -/
theorem C2_watch_snapshot_replay (s : ClientState) (k : String)
    (hw : ∀ w ∈ s.journal.watches, w.id < s.journal.nextWatchId) :
    (Client.watch s k).res = .ok s.journal.nextWatchId ∧
    (Client.watch s k).st.journal.watches =
      s.journal.watches ++
        [{ id := s.journal.nextWatchId, kind := k, started := true,
           delivered := (tableListKind s.base k).map createdEvent }] ∧
    precedes (Client.watch s k).tr (Op.registerWatch k) (Op.snapshotList k) ∧
    (Client.watch s k).tr.get? 0 = some Op.lockState ∧
    (Client.watch s k).tr.get? (3 + (tableListKind s.base k).length) = some Op.startWatch ∧
    (Client.watch s k).tr.get? (4 + (tableListKind s.base k).length) = some Op.unlockState ∧
    (Client.watch s k).tr.length = 5 + (tableListKind s.base k).length ∧
    (∀ i p, (Client.watch s k).tr.get? i = some (Op.notify p) →
       3 ≤ i ∧ i < 3 + (tableListKind s.base k).length) := by
  have htr : (Client.watch s k).tr =
      ([Op.lockState, Op.registerWatch k, Op.snapshotList k]
        ++ (tableListKind s.base k).map (fun m => Op.notify m.pk))
        ++ [Op.startWatch, Op.unlockState] := by
    simp [Client.watch, Journal.registerWatch, List.append_assoc]
  have hlen2 : ((tableListKind s.base k).map (fun m => Op.notify m.pk)).length =
      (tableListKind s.base k).length := List.length_map _ _
  have hlen12 : ([Op.lockState, Op.registerWatch k, Op.snapshotList k]
      ++ (tableListKind s.base k).map (fun m => Op.notify m.pk)).length =
      3 + (tableListKind s.base k).length := by
    simp [List.length_append]
    omega
  refine ⟨?_, ?_, ?_, ?_, ?_, ?_, ?_, ?_⟩
  · simp [Client.watch, Journal.registerWatch]
  · have hst : (Client.watch s k).st.journal =
        (((tableListKind s.base k).foldl
            (fun (j : Journal) (m : Model) => j.notifyWatch s.journal.nextWatchId (createdEvent m))
            ({ s.journal with
                watches := s.journal.watches ++
                  [{ id := s.journal.nextWatchId, kind := k, started := false, delivered := [] }],
                nextWatchId := s.journal.nextWatchId + 1 } : Journal)).startWatch
          s.journal.nextWatchId) := by
      simp [Client.watch, Journal.registerWatch]
    rw [hst]
    rw [fold_then_start _ s.journal.watches
          { id := s.journal.nextWatchId, kind := k, started := false, delivered := [] }
          s.journal.nextWatchId (tableListKind s.base k) rfl
          (fun w hmem => by simp [Nat.ne_of_lt (hw w hmem)])
          (by simp)]
    simp
  · refine ⟨1, 2, by omega, ?_, ?_⟩ <;> simp [htr]
  · simp [htr]
  · rw [htr, ← hlen12, List.get?_append_right (Nat.le_refl _)]
    simp
  · have h4 : 4 + (tableListKind s.base k).length =
        ([Op.lockState, Op.registerWatch k, Op.snapshotList k]
          ++ (tableListKind s.base k).map (fun m => Op.notify m.pk)).length + 1 := by
      rw [hlen12]
      omega
    rw [htr, h4, List.get?_append_right (Nat.le_succ _)]
    simp
  · simp [htr, List.length_append]
    omega
  · intro i p hp
    rw [htr] at hp
    constructor
    · by_contra hlt
      push_neg at hlt
      interval_cases i <;> simp at hp
    · by_contra hge
      push_neg at hge
      rw [List.get?_append_right (by rw [hlen12]; omega)] at hp
      rw [hlen12] at hp
      rcases hd : i - (3 + (tableListKind s.base k).length) with _ | _ | d <;>
        rw [hd] at hp <;> simp at hp

/-- C2 witness: a Watch on the one-row store `sOne` replays exactly the
one existing row as a Created event before starting, with registration
before the snapshot in its trace. -/
theorem C2_watch_snapshot_replay_witness :
    (∀ w ∈ sOne.journal.watches, w.id < sOne.journal.nextWatchId) ∧
    (Client.watch sOne "VM").st.journal.watches =
      sOne.journal.watches ++
        [{ id := sOne.journal.nextWatchId, kind := "VM", started := true,
           delivered := (tableListKind sOne.base "VM").map createdEvent }] ∧
    precedes (Client.watch sOne "VM").tr (Op.registerWatch "VM") (Op.snapshotList "VM") := by
  have hw : ∀ w ∈ sOne.journal.watches, w.id < sOne.journal.nextWatchId := by decide
  have h := C2_watch_snapshot_replay sOne "VM" hw
  exact ⟨hw, h.2.1, h.2.2.1⟩

end Controller
